import Mathlib

/-!
Verification development for the `zoneparser` core of yoogottamk/zone2pdns
(`src/zoneparser/__init__.py`).

The Python source is shallowly embedded as executable Lean definitions:

* physical lines are `List String`; characters are `Char`;
* generators become functions returning the list of produced values,
  paired with an `Option _` abort marker (a raised exception stops a
  Python generator pipeline, so values produced before the raise are
  kept and the abort is recorded);
* Python's partial operations (`line[i + 1]`, `value[-1]`, attribute
  access `.value` on tokens that lack it) are modelled with explicit
  `indexError` / `attributeError` abort values;
* Python truthiness is modelled exactly where the source relies on it:
  token objects (no `__bool__`/`__len__`) are always truthy
  (`tok_truthy`), `None` is falsy, a string is falsy iff empty.

Definition names follow the source (`char_to_token`, `tokens_from_file`,
`remove_extra_tokens`, `tokenise`, `is_ttl`, `is_namespace`, `is_type`,
`analyze`, `parse_zonefile`).
-/

namespace Zoneparser

/-- Tokens of the lexer. `data` is `DataToken`, `comment` is `CommentToken`,
`eol` is `EOLToken`, `openParen`/`closeParen` are the parenthesis tokens and
`space` is `SpaceToken`. Only `DataToken` and `CommentToken` carry a `value`
attribute in the source. -/
inductive Token where
  | data (value : String)
  | comment (value : String)
  | eol
  | openParen
  | closeParen
  | space
deriving Repr, DecidableEq

/-- Fatal lexer conditions: `valueError` is the explicit
`raise ValueError("Illegal char \\")` for a backslash with no open data
token; `indexError` is the implicit `IndexError` of `line[i + 1]` when the
backslash is the last character of a line. -/
inductive LexAbort where
  | valueError
  | indexError
deriving Repr, DecidableEq

/-- Exceptions the analyzer can raise: `IndexError` (from `entry_value[-1]`
on an empty string, or `group[-1]` on an empty group) and `AttributeError`
(from `.value` on a token class that has no `value` attribute). -/
inductive AnAbort where
  | indexError
  | attributeError
deriving Repr, DecidableEq

/-- An abort of the whole pipeline, tagged by the stage that raised. -/
inductive Abort where
  | lexer (a : LexAbort)
  | analyzer (a : AnAbort)
deriving Repr, DecidableEq

/-- Python truthiness of a token object: `Token` defines neither `__bool__`
nor `__len__`, so every token instance is truthy. -/
def tok_truthy (_ : Token) : Bool := true

/-- `DataToken.__eq__`: a data token equals a plain string iff its value
does; every other token class falls back to identity comparison with a
string, which is `False`. -/
def eqStr (t : Token) (s : String) : Bool :=
  match t with
  | .data v => v == s
  | _ => false

/-- `DataToken.is_special`: value is truthy (non-empty) and starts with
`$`. Non-data tokens are never tested in the source
(`isinstance(group[0], DataToken) and group[0].is_special()`), so they are
not special. -/
def is_special (t : Token) : Bool :=
  match t with
  | .data v =>
    match v.data with
    | [] => false
    | c :: _ => c == '$'
  | _ => false

/-- Attribute access `token.value`: defined for `DataToken` and
`CommentToken`, an `AttributeError` for every other token class. -/
def tok_value (t : Token) : Except AnAbort String :=
  match t with
  | .data v => Except.ok v
  | .comment v => Except.ok v
  | _ => Except.error AnAbort.attributeError

/-- `Tokeniser.char_to_token`. -/
def char_to_token (c : Char) : Token :=
  if c = ' ' || c = '\t' then Token.space
  else if c = ';' then Token.comment ""
  else if c = '\r' || c = '\n' then Token.eol
  else if c = '(' then Token.openParen
  else if c = ')' then Token.closeParen
  else Token.data (String.mk [c])

/-- Python `str.strip()` whitespace set (ASCII part). -/
def py_space (c : Char) : Bool :=
  c = ' ' || c = '\t' || c = '\n' || c = '\r' || c = '\x0b' || c = '\x0c'

/-- Python `str.strip()`: drop leading and trailing whitespace. -/
def py_strip (cs : List Char) : String :=
  String.mk (((cs.dropWhile py_space).reverse.dropWhile py_space).reverse)

/-- Flush a still-open data accumulation into a `DataToken`, as the source
does with `if current_token: yield current_token`. -/
def flush_data (cur : Option String) : List Token :=
  match cur with
  | some v => [Token.data v]
  | none => []

/-- The per-line character loop of `Tokeniser._tokens_from_file`.
`cur` is the open `DataToken` value (if any), `esc` the `escaped_char`
flag. The escape branch is checked before the `escaped_char` skip, exactly
as in the source, so an escaped backslash re-enters the escape branch.
A backslash with no open data token raises `ValueError`; a backslash that
is the last character of the line evaluates `line[i + 1]` out of range and
raises `IndexError`. A `;` closes the line early: the open data token was
already flushed when the comment character closed it, the comment takes
the stripped remainder of the line, and only the synthetic end-of-line
token follows. -/
def lex_line : List Char → Option String → Bool → List Token × Option LexAbort
  | [], cur, _ => (flush_data cur ++ [Token.eol], none)
  | c :: rest, cur, esc =>
    if c = '\\' then
      match cur with
      | some v =>
        match rest with
        | [] => ([], some LexAbort.indexError)
        | d :: _ => lex_line rest (some ((v.push '\\').push d)) true
      | none => ([], some LexAbort.valueError)
    else if esc then lex_line rest cur false
    else
      match char_to_token c with
      | .data _ =>
        match cur with
        | some v => lex_line rest (some (v.push c)) false
        | none => lex_line rest (some (String.mk [c])) false
      | .comment _ => (flush_data cur ++ [Token.comment (py_strip rest), Token.eol], none)
      | t =>
        let r := lex_line rest none false
        (flush_data cur ++ t :: r.1, r.2)

/-- `Tokeniser._tokens_from_file`: lex each line in order; a raised
exception ends the token stream (later lines are not reached). -/
def tokens_from_file : List String → List Token × Option LexAbort
  | [] => ([], none)
  | l :: ls =>
    let r := lex_line l.data none false
    match r.2 with
    | some a => (r.1, some a)
    | none =>
      let r2 := tokens_from_file ls
      (r.1 ++ r2.1, r2.2)

/-- One step of `Tokeniser._remove_extra_tokens`: keep data tokens; drop a
space after a space, an end-of-line after an end-of-line, and a leading
end-of-line; keep everything else. `prev` is the previous input token
(yielded or not). -/
def keep_token (prev : Option Token) (t : Token) : Bool :=
  match t with
  | .data _ => true
  | _ =>
    match prev, t with
    | some .space, .space => false
    | some .eol, .eol => false
    | none, .eol => false
    | _, _ => true

/-- `Tokeniser._remove_extra_tokens` with the previous-token state made
explicit. -/
def remove_extra_aux : Option Token → List Token → List Token
  | _, [] => []
  | prev, t :: ts =>
    (if keep_token prev t then [t] else []) ++ remove_extra_aux (some t) ts

/-- `Tokeniser._remove_extra_tokens`. -/
def remove_extra_tokens (ts : List Token) : List Token :=
  remove_extra_aux none ts

/-- The grouping state of `Tokeniser.tokenise`: the accumulator `current`
and the flat (non-nesting) `in_parens` flag. -/
structure GState where
  current : List Token
  in_parens : Bool
deriving Repr, DecidableEq

/-- The lone-whitespace test `len(current) == 1 and type(current[0]) ==
SpaceToken`. -/
def lone_space (l : List Token) : Bool :=
  match l with
  | [Token.space] => true
  | _ => false

/-- One step of the grouping loop in `Tokeniser.tokenise`: returns the new
state and the groups yielded by this token (at most one). A space is kept
only when the accumulator is empty; parentheses set and clear the flag and
are discarded; an end-of-line with a non-empty accumulator closes the
group outside parentheses unless the accumulator is a lone space (which is
then neither yielded nor cleared); every other token, including an
end-of-line with an empty accumulator, is appended. -/
def groupStep (st : GState) (t : Token) : GState × List (List Token) :=
  match t with
  | .space =>
    if st.current.isEmpty then ({ st with current := st.current ++ [Token.space] }, [])
    else (st, [])
  | .openParen => ({ st with in_parens := true }, [])
  | .closeParen => ({ st with in_parens := false }, [])
  | .eol =>
    if !st.current.isEmpty then
      if !st.in_parens then
        if !st.current.isEmpty && !lone_space st.current then
          ({ st with current := [] }, [st.current])
        else (st, [])
      else (st, [])
    else ({ st with current := st.current ++ [Token.eol] }, [])
  | t' => ({ st with current := st.current ++ [t'] }, [])

/-- Run the grouping loop over a token list, collecting the yielded groups
and the final state. -/
def groupRunAux : GState → List Token → List (List Token) × GState
  | st, [] => ([], st)
  | st, t :: ts =>
    let s := groupStep st t
    let r := groupRunAux s.1 ts
    (s.2 ++ r.1, r.2)

/-- `Tokeniser.tokenise`: group the cleaned token stream. The trailing
`if current: yield current` only runs when the token stream ended normally;
if the lexer raised, the exception propagates before that line. -/
def tokenise (zonefile : List String) : List (List Token) × Option LexAbort :=
  let tf := tokens_from_file zonefile
  let gr := groupRunAux ⟨[], false⟩ (remove_extra_tokens tf.1)
  match tf.2 with
  | none => (gr.1 ++ (if gr.2.current.isEmpty then [] else [gr.2.current]), none)
  | some a => (gr.1, some a)

/-- The TTL carried into a `DNSRecord`: either the plain string of an
explicit TTL token (`group[ttl_pos].value`) or the token object stored by
a `$TTL` directive (`current_ttl = group[1]`). -/
inductive TtlVal where
  | str (s : String)
  | tok (t : Token)
deriving Repr, DecidableEq

/-- Python truthiness of `entry_ttl` (`if not entry_ttl`): `None` is falsy,
a string is falsy iff empty, a token object is always truthy. -/
def ttl_falsy : Option TtlVal → Bool
  | none => true
  | some (.str s) => s.isEmpty
  | some (.tok _) => false

/-- `DNSRecord` after `__init__` (which rewrites `\;` to `;` in `value`).
The field named `type` in the source is `type` here as well. -/
structure DNSRecord where
  domain : String
  type : String
  value : String
  ttl : TtlVal
  record_class : String
  comment : String
deriving Repr, DecidableEq

/-- An element of the analyzer's output stream: a `DNSRecord` or a
`DNSRecordError` (offending group plus reason string). -/
inductive Item where
  | record (r : DNSRecord)
  | error (group : List Token) (error : String)
deriving Repr, DecidableEq

/-- The carried state of `ZoneAnalyser.analyze` (the spec's ParseContext):
`current_ttl` and `last_domain` hold token objects (or `None`),
`current_origin` holds a token (initially `DataToken(default_zone)`). -/
structure ParseContext where
  current_ttl : Option Token
  current_origin : Token
  last_domain : Option Token
deriving Repr, DecidableEq

/-- `ZoneAnalyser._is_namespace`. -/
def is_namespace (v : String) : Bool :=
  v == "IN" || v == "CH" || v == "HS"

/-- The type mnemonics accepted by `ZoneAnalyser._is_type`. -/
def rr_types : List String :=
  ["A", "AAAA", "AFSDB", "APL", "CERT", "CNAME", "DHCID", "DLV", "DNAME",
   "DNSKEY", "DS", "HIP", "IPSECKEY", "KEY", "KX", "LOC", "MX", "NAPTR",
   "NS", "NSEC", "NSEC3", "NSEC3PARAM", "PTR", "RRSIG", "RP", "SIG", "SOA",
   "SPF", "SRV", "SSHFP", "TA", "TKEY", "TLSA", "TSIG", "TXT"]

/-- `ZoneAnalyser._is_type`. -/
def is_type (v : String) : Bool := rr_types.contains v

/-- Python `\w` (word character), ASCII fragment: letter, digit or
underscore. All inputs in this development are ASCII. -/
def is_word_char (c : Char) : Bool := c.isAlphanum || c == '_'

/-- Anchored match of the tail of `^\d+\w?$` after its first digit: the
remaining characters must be digits except that the final character may be
any word character (absorbed by the optional `\w?`). -/
def ttl_tail : List Char → Bool
  | [] => true
  | [c] => is_word_char c
  | c :: cs => c.isDigit && ttl_tail cs

/-- `ZoneAnalyser._is_ttl`: `re.match(r"^\d+\w?$", v)` — one or more
digits, optionally followed by exactly one word character. -/
def is_ttl (v : String) : Bool :=
  match v.data with
  | [] => false
  | c :: cs => c.isDigit && ttl_tail cs

/-- Bounds-checked list access standing for Python `group[i]` (an
`IndexError` when out of range). -/
def tok_at (g : List Token) (i : Nat) : Except AnAbort Token :=
  match g[i]? with
  | some t => Except.ok t
  | none => Except.error AnAbort.indexError

/-- The `[x.value for x in group[rdata_pos:]]` comprehension: first missing
`value` attribute raises. -/
def values_of : List Token → Except AnAbort (List String)
  | [] => Except.ok []
  | t :: ts =>
    match tok_value t with
    | .error a => Except.error a
    | .ok v =>
      match values_of ts with
      | .error a => Except.error a
      | .ok vs => Except.ok (v :: vs)

/-- Python `" ".join(...)`. -/
def join_space : List String → String
  | [] => ""
  | [s] => s
  | s :: rest => s ++ " " ++ join_space rest

/-- Python `entry_owner.endswith(".")` for the one-character suffix. -/
def endswith_dot (s : String) : Bool := s.data.getLast? == some '.'

/-- Python `....startswith(".")` for the one-character prefix. -/
def startswith_dot (s : String) : Bool := s.data.head? == some '.'

/-- `value.replace("\\;", ";")` from `DNSRecord.__init__`: left-to-right,
non-overlapping replacement of every `\;` by `;`. -/
def unescape_semi : List Char → List Char
  | [] => []
  | '\\' :: ';' :: rest => ';' :: unescape_semi rest
  | c :: rest => c :: unescape_semi rest

/-- Comment detachment at the top of the analyzer loop: pop a trailing
`CommentToken` as the record comment. (The `group[-1]` access itself is
bounds-checked by the caller.) -/
def pop_comment (group : List Token) : List Token × String :=
  match group.getLast? with
  | some (.comment v) => (group.dropLast, v)
  | _ => (group, "")

/-- Owner qualification (step just before yielding): append the current
origin unless the owner already ends with a dot; a leading dot on the
origin suppresses the separating dot. Reads `current_origin.value`. -/
def qualify_owner (ctx : ParseContext) (owner : String) : Except AnAbort String :=
  if endswith_dot owner then Except.ok owner
  else
    match tok_value ctx.current_origin with
    | .error a => Except.error a
    | .ok ov =>
      Except.ok (if startswith_dot ov then owner ++ ov else owner ++ "." ++ ov)

/-- Value qualification for `MX`/`CNAME`: `entry_value[-1]` raises
`IndexError` on an empty rdata; otherwise a value not ending in a dot gets
`"." + current_origin.value` appended. -/
def qualify_value (ctx : ParseContext) (vt : String) (v : String) : Except AnAbort String :=
  if vt == "MX" || vt == "CNAME" then
    match v.data.getLast? with
    | none => Except.error AnAbort.indexError
    | some ch =>
      if ch = '.' then Except.ok v
      else
        match tok_value ctx.current_origin with
        | .error a => Except.error a
        | .ok ov => Except.ok (v ++ "." ++ ov)
  else Except.ok v

/-- The final part of the analyzer body, with all fields resolved: the
`if not entry_ttl` check, owner qualification, MX/CNAME value
qualification, and the `DNSRecord` construction (whose `__init__`
rewrites `\;`). -/
def recordFinish (ctx : ParseContext) (g : List Token) (comment : String)
    (entry_owner : String) (entry_ttl : Option TtlVal)
    (entry_class vt entry_value : String) : Except AnAbort Item :=
  match entry_ttl with
  | none => Except.ok (Item.error g "No ttl specified and no default ttl specified")
  | some ttlv =>
    if ttl_falsy (some ttlv) then
      Except.ok (Item.error g "No ttl specified and no default ttl specified")
    else
      match qualify_owner ctx entry_owner with
      | .error a => Except.error a
      | .ok owner2 =>
        match qualify_value ctx vt entry_value with
        | .error a => Except.error a
        | .ok value2 =>
          Except.ok (Item.record
            ⟨owner2, vt, String.mk (unescape_semi value2.data),
             ttlv, entry_class, comment⟩)

/-- The type/rdata part of the analyzer body: the type candidate at
`type_pos` must be a known mnemonic, everything after it is rdata joined
with spaces. -/
def recordTail2 (ctx : ParseContext) (g : List Token) (comment : String)
    (entry_owner : String) (entry_ttl : Option TtlVal)
    (entry_class : String) (type_pos : Nat) : Except AnAbort Item :=
  if g.length ≤ type_pos then Except.ok (Item.error g "Invalid Record")
  else
    match tok_at g type_pos with
    | .error a => Except.error a
    | .ok tt =>
      match tok_value tt with
      | .error a => Except.error a
      | .ok vt =>
        if is_type vt then
          match values_of (g.drop (type_pos + 1)) with
          | .error a => Except.error a
          | .ok vals =>
            recordFinish ctx g comment entry_owner entry_ttl entry_class vt
              (join_space vals)
        else Except.ok (Item.error g "Invalid Type")

/-- The class part of the analyzer body: the class candidate at
`class_pos` is consumed when it is a known class (shifting the type
position) and defaults to `IN` otherwise. -/
def recordTail (ctx : ParseContext) (g : List Token) (comment : String)
    (entry_owner : String) (entry_ttl : Option TtlVal) (class_pos : Nat) :
    Except AnAbort Item :=
  if g.length ≤ class_pos then Except.ok (Item.error g "Invalid Record")
  else
    match tok_at g class_pos with
    | .error a => Except.error a
    | .ok tc =>
      match tok_value tc with
      | .error a => Except.error a
      | .ok vc =>
        if is_namespace vc then
          recordTail2 ctx g comment entry_owner entry_ttl vc (class_pos + 1)
        else
          recordTail2 ctx g comment entry_owner entry_ttl "IN" class_pos

/-- The resource-record part of the analyzer body, after directives and
owner substitution: read `group[0].value` as the owner, consume index 1 as
TTL when `_is_ttl` matches (shifting the later positions otherwise), then
continue in `recordTail`. -/
def recordStep (ctx : ParseContext) (g : List Token) (comment : String) :
    Except AnAbort Item :=
  match tok_at g 0 with
  | .error a => Except.error a
  | .ok t0 =>
    match tok_value t0 with
    | .error a => Except.error a
    | .ok entry_owner =>
      if g.length ≤ 1 then Except.ok (Item.error g "Invalid Record")
      else
        match tok_at g 1 with
        | .error a => Except.error a
        | .ok t1 =>
          match tok_value t1 with
          | .error a => Except.error a
          | .ok v1 =>
            if is_ttl v1 then
              recordTail ctx g comment entry_owner (some (TtlVal.str v1)) 2
            else
              recordTail ctx g comment entry_owner (ctx.current_ttl.map TtlVal.tok) 1

/-- Directive dispatch (`$ORIGIN`, `$TTL`, `$INCLUDE`, other `$`-tokens).
`g` is the whole (comment-stripped) group; well-formed `$ORIGIN`/`$TTL`
directives of exactly two tokens update the context and yield nothing,
every other directive yields an error. -/
def dirStep (ctx : ParseContext) (t0 : Token) (g : List Token) :
    Option Item × ParseContext :=
  if eqStr t0 "$ORIGIN" then
    match g with
    | [_, t1] => (none, { ctx with current_origin := t1 })
    | _ => (some (Item.error g "Invalid ORIGIN entry"), ctx)
  else if eqStr t0 "$TTL" then
    match g with
    | [_, t1] => (none, { ctx with current_ttl := some t1 })
    | _ => (some (Item.error g "Invalid TTL entry"), ctx)
  else if eqStr t0 "$INCLUDE" then
    (some (Item.error g "$INCLUDE is unsupported"), ctx)
  else
    (some (Item.error g ("Invalid special " ++
      (match t0 with | .data v => v | _ => ""))), ctx)

/-- Owner-field resolution and record parsing: a leading space token is
replaced by `last_domain` (error if none); a leading `@` is replaced by
`current_origin`, which is also stored into `last_domain` — the falsy-origin
error branch of the source is unreachable because a token object is always
truthy (`tok_truthy`), and it is kept here verbatim. -/
def ownerAndRecord (ctx : ParseContext) (t0 : Token) (tail : List Token)
    (comment : String) : Except AnAbort (Option Item × ParseContext) :=
  match t0 with
  | .space =>
    match ctx.last_domain with
    | some d =>
      (recordStep ctx (d :: tail) comment).map (fun it => (some it, ctx))
    | none =>
      Except.ok (some (Item.error (t0 :: tail)
        "No preceding domain for empty domain field"), ctx)
  | _ =>
    if eqStr t0 "@" then
      if tok_truthy ctx.current_origin then
        let ctx2 := { ctx with last_domain := some ctx.current_origin }
        (recordStep ctx2 (ctx.current_origin :: tail) comment).map
          (fun it => (some it, ctx2))
      else
        Except.ok (some (Item.error (t0 :: tail)
          "No ORIGIN declared for @ usage"), ctx)
    else
      (recordStep ctx (t0 :: tail) comment).map (fun it => (some it, ctx))

/-- The analyzer body for one comment-stripped group: empty and
one-token groups error out, then directives dispatch, then owner
resolution and record parsing. -/
def analyzeGroup2 (ctx : ParseContext) (group : List Token) (comment : String) :
    Except AnAbort (Option Item × ParseContext) :=
  match group with
  | [] => Except.ok (some (Item.error [] "Empty token group"), ctx)
  | [t] => Except.ok (some (Item.error [t] "Missing fields"), ctx)
  | t0 :: t1 :: rest =>
    if is_special t0 then Except.ok (dirStep ctx t0 (t0 :: t1 :: rest))
    else ownerAndRecord ctx t0 (t1 :: rest) comment

/-- One iteration of the `for group in token_groups` loop: the initial
`group[-1]` access raises `IndexError` on an empty group; otherwise a
trailing comment token is detached and the body runs. -/
def analyzeGroup (ctx : ParseContext) (group0 : List Token) :
    Except AnAbort (Option Item × ParseContext) :=
  match group0.getLast? with
  | none => Except.error AnAbort.indexError
  | some _ =>
    let p := pop_comment group0
    analyzeGroup2 ctx p.1 p.2

/-- The whole analyzer loop: items yielded before an exception are kept,
the exception is recorded and later groups are not reached. -/
def analyzeGroups : ParseContext → List (List Token) → List Item × Option AnAbort
  | _, [] => ([], none)
  | ctx, g :: gs =>
    match analyzeGroup ctx g with
    | .error a => ([], some a)
    | .ok (it, ctx2) =>
      let r := analyzeGroups ctx2 gs
      (it.toList ++ r.1, r.2)

/-- `ZoneAnalyser.analyze`: seed the context from the caller-supplied
default zone (`current_origin = DataToken(default_zone)`). -/
def analyze (token_groups : List (List Token)) (default_zone : String) :
    List Item × Option AnAbort :=
  analyzeGroups ⟨none, Token.data default_zone, none⟩ token_groups

/-- `parse_zonefile`, with lazy exception interleaving made explicit: the
analyzer consumes every group the grouper completed before a lexer abort,
so an analyzer exception on one of those groups fires first; the lexer
abort surfaces only if the analyzer finishes all completed groups. -/
def parse_zonefile (zonefile : List String) (zone : String) :
    List Item × Option Abort :=
  let tg := tokenise zonefile
  let r := analyze tg.1 zone
  (r.1, match r.2 with
        | some a => some (Abort.analyzer a)
        | none => tg.2.map Abort.lexer)

/-- Predicate written from the claim wording for the TTL pattern: one or
more digits optionally followed by exactly one unit LETTER. Kept separate
from `is_ttl` (which is translated from the source regex) so the two can
be compared. -/
def is_ttl_claim (v : String) : Bool :=
  (!v.data.isEmpty && v.data.all Char.isDigit) ||
  (!v.data.dropLast.isEmpty && v.data.dropLast.all Char.isDigit &&
    (match v.data.getLast? with | some ch => ch.isAlpha | none => false))

/-- Predicate written from the amended wording for the TTL pattern: one or
more digits optionally followed by exactly one word character (letter,
digit or underscore). -/
def is_ttl_word (v : String) : Bool :=
  (!v.data.isEmpty && v.data.all Char.isDigit) ||
  (!v.data.dropLast.isEmpty && v.data.dropLast.all Char.isDigit &&
    (match v.data.getLast? with | some ch => is_word_char ch | none => false))

/-- A comment-stripped group that triggers `@`-owner substitution: at
least two tokens and a first token equal (as a data token) to `@`. -/
def at_subst : List Token → Bool
  | t0 :: _ :: _ => eqStr t0 "@"
  | _ => false

/-- A comment-stripped group that is a well-formed `$ORIGIN` directive
(exactly two tokens, first one `$ORIGIN`). -/
def is_origin_dir : List Token → Bool
  | [t0, _] => eqStr t0 "$ORIGIN"
  | _ => false

/-- A comment-stripped group that is a well-formed `$TTL` directive. -/
def is_ttl_dir : List Token → Bool
  | [t0, _] => eqStr t0 "$TTL"
  | _ => false

/-- A comment-stripped group the analyzer processes silently (well-formed
`$ORIGIN` or `$TTL`). -/
def is_silent_dir (l : List Token) : Bool := is_origin_dir l || is_ttl_dir l

/-- A record group that yields no item: its comment-stripped form is a
well-formed `$ORIGIN`/`$TTL` directive. -/
def silent_directive (g : List Token) : Bool := is_silent_dir (pop_comment g).1

/-- C1: the claim says the only abort condition is a backslash with no
open data token, that `analyze` never raises (explicitly including
MX/CNAME records with empty rdata), and that the lexer does not abort on
a backslash that ends a line while a data token is open. The code
contradicts this (a code bug against the spec's propagation policy):
`smtp MX` with a default TTL makes `analyze` evaluate `entry_value[-1]`
on the empty string (IndexError), and `ab\` makes the lexer evaluate
`line[i + 1]` out of range (IndexError) — neither is the documented
backslash-with-no-open-data `ValueError`, which the third conjunct shows
separately. -/
theorem c1_code_bug_eval :
    parse_zonefile ["$TTL 300", "smtp MX"] "example.com." =
      ([], some (Abort.analyzer AnAbort.indexError))
    ∧ tokens_from_file ["ab\\"] = ([], some LexAbort.indexError)
    ∧ tokens_from_file ["\\a"] = ([], some LexAbort.valueError) :=
  ⟨rfl, rfl, rfl⟩

/-- C4: the claim says that with an empty default zone and no `$ORIGIN`,
a group with owner `@` yields the `NoOriginDeclared` error. The code
contradicts its own (unreachable) error branch: `current_origin` is the
token object `DataToken("")`, which is always truthy, so the `@` is
substituted by the empty origin and a record with domain `"."` is
yielded instead of the error. -/
theorem c4_code_bug_eval :
    parse_zonefile ["$TTL 300", "@ A 1.2.3.4"] "" =
      ([Item.record ⟨".", "A", "1.2.3.4", TtlVal.tok (Token.data "300"), "IN", ""⟩],
       none) :=
  rfl

/-- C2 counterexample: after the successfully parsed record
`www A 1.2.3.4` (default TTL in effect), the claim predicts
`last_domain = "www.example.com."`, so the following whitespace-owner
group should reuse that owner. The code never updates `last_domain` when
the owner is explicit, so the following group errors with "No preceding
domain" instead of yielding a second record. -/
theorem c2_counterexample :
    parse_zonefile ["$TTL 300", "www A 1.2.3.4", "\tA 5.6.7.8"] "example.com." =
      ([Item.record ⟨"www.example.com.", "A", "1.2.3.4",
          TtlVal.tok (Token.data "300"), "IN", ""⟩,
        Item.error [Token.space, Token.data "A", Token.data "5.6.7.8"]
          "No preceding domain for empty domain field"], none) :=
  rfl

/-- C3 counterexample: a blank continuation line leaves the lone
whitespace token in the accumulator (it is not yielded, but also not
cleared), so it carries over and becomes the first token of the next
group — the claim says it does not carry over, which would make the
single group here `[data "a", data "b"]`. -/
theorem c3_counterexample :
    tokenise [" ", "a b"] =
      ([[Token.space, Token.data "a", Token.data "b"]], none) :=
  rfl

/-- C5 counterexample: `$INCLUDE x` is a directive group (first token is
data and starts with `$`), yet the analyzer yields one item for it (the
unsupported-include error), not zero as the claim states. -/
theorem c5_counterexample :
    tokenise ["$INCLUDE x"] = ([[Token.data "$INCLUDE", Token.data "x"]], none)
    ∧ is_special (Token.data "$INCLUDE") = true
    ∧ parse_zonefile ["$INCLUDE x"] "z" =
        ([Item.error [Token.data "$INCLUDE", Token.data "x"]
           "$INCLUDE is unsupported"], none) :=
  ⟨rfl, rfl, rfl⟩

/-- C6 counterexample: when the TTL comes from a preceding `$TTL`
directive, the yielded record's ttl field is the directive's data TOKEN
(`current_ttl = group[1]`), not the plain string `"300"` the claim
requires. -/
theorem c6_counterexample :
    parse_zonefile ["$TTL 300", "a A 1.2.3.4"] "z." =
      ([Item.record ⟨"a.z.", "A", "1.2.3.4",
          TtlVal.tok (Token.data "300"), "IN", ""⟩], none)
    ∧ TtlVal.tok (Token.data "300") ≠ TtlVal.str "300" :=
  ⟨rfl, by decide⟩

/-- C7 counterexample: an end-of-line token arriving while `in_parens` is
true and the accumulator is non-empty is silently discarded — the state
is unchanged — whereas the claim says it is appended to the accumulator
(which would give accumulator `[data "a", eol]`). -/
theorem c7_counterexample :
    groupStep ⟨[Token.data "a"], true⟩ Token.eol = (⟨[Token.data "a"], true⟩, [])
    ∧ (⟨[Token.data "a"], true⟩ : GState) ≠ ⟨[Token.data "a", Token.eol], true⟩ :=
  ⟨rfl, by decide⟩

/-- C8 counterexample: the comment emitted for `a ;  hi ` has value
`"hi"` — the source applies `.strip()`, removing the LEADING whitespace
of the remainder as well, whereas the claim requires rstrip-only, which
would give `"  hi"`. -/
theorem c8_counterexample :
    tokens_from_file ["a ;  hi "] =
      ([Token.data "a", Token.space, Token.comment "hi", Token.eol], none)
    ∧ ("hi" : String) ≠ "  hi" :=
  ⟨rfl, by decide⟩

/-- C9 counterexample: `3_` matches the source regex `^\d+\w?$` (Python
`\w` accepts the underscore) and is consumed as the TTL field, but it is
not "digits followed by one unit letter" as the claim states. -/
theorem c9_counterexample :
    is_ttl "3_" = true ∧ is_ttl_claim "3_" = false
    ∧ parse_zonefile ["a 3_ A 1.2.3.4"] "z." =
        ([Item.record ⟨"a.z.", "A", "1.2.3.4", TtlVal.str "3_", "IN", ""⟩],
         none) :=
  ⟨rfl, rfl, rfl⟩

theorem groupStep_out_nonempty (st : GState) (t : Token) (g : List Token)
    (h : g ∈ (groupStep st t).2) : g ≠ [] := by
  cases t
  case data v => simp only [groupStep] at h; simp at h
  case comment v => simp only [groupStep] at h; simp at h
  case openParen => simp only [groupStep] at h; simp at h
  case closeParen => simp only [groupStep] at h; simp at h
  case space => simp only [groupStep] at h; split at h <;> simp at h
  case eol =>
    simp only [groupStep] at h
    split at h
    · split at h
      · split at h
        · rename_i h1 h2 h3
          simp only [List.mem_singleton] at h
          subst h
          simp only [Bool.and_eq_true, Bool.not_eq_true'] at h3
          intro hnil
          rw [hnil] at h3
          simp at h3
        · simp at h
      · simp at h
    · simp at h

theorem groupRunAux_nonempty (ts : List Token) : ∀ (st : GState) (g : List Token),
    g ∈ (groupRunAux st ts).1 → g ≠ [] := by
  induction ts with
  | nil => intro st g h; simp [groupRunAux] at h
  | cons t ts ih =>
    intro st g h
    simp only [groupRunAux] at h
    rcases List.mem_append.1 h with h1 | h2
    · exact groupStep_out_nonempty st t g h1
    · exact ih _ g h2

/-- C10: every record group yielded by `tokenise` is non-empty, for every
input line sequence — groups are only emitted from a non-empty
accumulator, and the end-of-input leftover is only yielded when
non-empty — so the analyzer's `group[-1]` comment-detachment access is
defined on every group the grouper produces. -/
theorem c10_groups_nonempty (zonefile : List String) (g : List Token)
    (h : g ∈ (tokenise zonefile).1) : g ≠ [] := by
  simp only [tokenise] at h
  split at h
  · rcases List.mem_append.1 h with h1 | h2
    · exact groupRunAux_nonempty _ _ g h1
    · split at h2
      · simp at h2
      · simp_all
  · exact groupRunAux_nonempty _ _ g h

/-- C10 witness: a concrete group produced by the grouper, shown
non-empty through `c10_groups_nonempty`. -/
theorem c10_witness :
    [Token.data "a"] ∈ (tokenise ["a"]).1 ∧ [Token.data "a"] ≠ [] :=
  ⟨by decide, c10_groups_nonempty ["a"] [Token.data "a"] (by decide)⟩

/-- C3 amended: when an end-of-line token arrives outside parentheses
and the accumulator is exactly one lone whitespace token, the accumulator
is not yielded — but it is also not cleared: the grouping state is left
completely unchanged, so the lone whitespace token carries over into the
next record group. -/
theorem c3_amended (st : GState) (h1 : st.current = [Token.space])
    (h2 : st.in_parens = false) : groupStep st Token.eol = (st, []) := by
  obtain ⟨c, p⟩ := st
  simp only at h1 h2
  subst h1
  subst h2
  rfl

/-- C3 amended witness. -/
theorem c3_amended_witness :
    groupStep ⟨[Token.space], false⟩ Token.eol = (⟨[Token.space], false⟩, []) :=
  c3_amended ⟨[Token.space], false⟩ rfl rfl

/-- C7 amended: an end-of-line token is appended to the accumulator when
the accumulator is empty (whatever the parenthesis state); but while
`in_parens` is true with a NON-empty accumulator the end-of-line token is
silently discarded — the state is unchanged — not appended. -/
theorem c7_amended (st : GState) :
    (st.current = [] →
      groupStep st Token.eol = ({ st with current := [Token.eol] }, []))
    ∧ (st.current ≠ [] → st.in_parens = true →
      groupStep st Token.eol = (st, [])) := by
  obtain ⟨c, p⟩ := st
  constructor
  · intro h
    simp only at h
    subst h
    rfl
  · intro h hp
    simp only at h hp
    subst hp
    have hc : c.isEmpty = false := by
      cases c
      · simp at h
      · rfl
    simp [groupStep, hc]

/-- C7 amended witness. -/
theorem c7_amended_witness :
    groupStep ⟨[], false⟩ Token.eol = (⟨[Token.eol], false⟩, [])
    ∧ groupStep ⟨[Token.data "x"], true⟩ Token.eol = (⟨[Token.data "x"], true⟩, []) :=
  ⟨(c7_amended ⟨[], false⟩).1 rfl,
   (c7_amended ⟨[Token.data "x"], true⟩).2 (by simp) rfl⟩

/-- C8 amended: when the lexer meets an unescaped `;`, the emitted
comment token's value is the remainder of the physical line with BOTH
leading and trailing whitespace removed (Python `.strip()`), and lexing
of the line stops immediately after it: only the already-flushed data
token (if any) precedes it and only the synthetic end-of-line follows. -/
theorem c8_amended (rest : List Char) (cur : Option String) :
    lex_line (';' :: rest) cur false =
      (flush_data cur ++ [Token.comment (py_strip rest), Token.eol], none) :=
  rfl

theorem digit_is_word (c : Char) (h : c.isDigit = true) : is_word_char c = true := by
  simp [is_word_char, Char.isAlphanum, h]

theorem ttl_tail_eq (cs : List Char) :
    ttl_tail cs = (cs.all Char.isDigit ||
      (cs.dropLast.all Char.isDigit &&
        (match cs.getLast? with | some ch => is_word_char ch | none => false))) := by
  induction cs with
  | nil => rfl
  | cons c cs ih =>
    cases cs with
    | nil =>
      simp only [ttl_tail, List.all_cons, List.all_nil, List.dropLast_single,
        List.getLast?_singleton, Bool.and_true]
      cases hd : c.isDigit
      · simp
      · simp [digit_is_word c hd]
    | cons c2 cs2 =>
      have hstep : ttl_tail (c :: c2 :: cs2) = (c.isDigit && ttl_tail (c2 :: cs2)) := rfl
      rw [hstep, ih, List.dropLast_cons₂, List.getLast?_cons_cons,
        List.all_cons, List.all_cons]
      cases hd : c.isDigit
      · simp [List.all_cons, hd]
      · simp [List.all_cons, hd]

theorem is_ttl_eq_word (v : String) : is_ttl v = is_ttl_word v := by
  unfold is_ttl is_ttl_word
  cases hv : v.data with
  | nil => rfl
  | cons c cs =>
    cases cs with
    | nil =>
      cases hd : c.isDigit
      · simp [ttl_tail, hd]
      · simp [ttl_tail, hd]
    | cons c2 cs2 =>
      have hstep : (match c :: c2 :: cs2 with
          | [] => false
          | c :: cs => c.isDigit && ttl_tail cs) = (c.isDigit && ttl_tail (c2 :: cs2)) := rfl
      rw [hstep, ttl_tail_eq, List.dropLast_cons₂, List.getLast?_cons_cons,
        List.all_cons, List.all_cons]
      cases hd : c.isDigit
      · simp [List.all_cons, hd]
      · simp [List.all_cons, hd]

theorem tok_at_ok (g : List Token) (i : Nat) (t : Token)
    (h : tok_at g i = Except.ok t) : g[i]? = some t := by
  unfold tok_at at h
  split at h
  · rename_i t' ht'
    simp only [Except.ok.injEq] at h
    rw [ht', h]
  · simp at h

theorem recordFinish_ttl (ctx : ParseContext) (g : List Token) (c o : String)
    (et : Option TtlVal) (ec vt ev : String) (r : DNSRecord)
    (h : recordFinish ctx g c o et ec vt ev = Except.ok (Item.record r)) :
    ∃ ttlv, et = some ttlv ∧ r.ttl = ttlv := by
  unfold recordFinish at h
  split at h
  · simp at h
  · rename_i ttlv
    split at h
    · simp at h
    · split at h
      · simp at h
      · split at h
        · simp at h
        · simp only [Except.ok.injEq, Item.record.injEq] at h
          exact ⟨ttlv, rfl, by rw [← h]⟩

theorem recordTail2_ttl (ctx : ParseContext) (g : List Token) (c o : String)
    (et : Option TtlVal) (ec : String) (tp : Nat) (r : DNSRecord)
    (h : recordTail2 ctx g c o et ec tp = Except.ok (Item.record r)) :
    ∃ ttlv, et = some ttlv ∧ r.ttl = ttlv := by
  unfold recordTail2 at h
  split at h
  · simp at h
  · split at h
    · simp at h
    · split at h
      · simp at h
      · split at h
        · split at h
          · simp at h
          · exact recordFinish_ttl _ _ _ _ _ _ _ _ _ h
        · simp at h

theorem recordTail_ttl (ctx : ParseContext) (g : List Token) (c o : String)
    (et : Option TtlVal) (cp : Nat) (r : DNSRecord)
    (h : recordTail ctx g c o et cp = Except.ok (Item.record r)) :
    ∃ ttlv, et = some ttlv ∧ r.ttl = ttlv := by
  unfold recordTail at h
  split at h
  · simp at h
  · split at h
    · simp at h
    · split at h
      · simp at h
      · split at h
        · exact recordTail2_ttl _ _ _ _ _ _ _ _ h
        · exact recordTail2_ttl _ _ _ _ _ _ _ _ h

theorem recordStep_ttl (ctx : ParseContext) (g : List Token) (c : String)
    (r : DNSRecord) (h : recordStep ctx g c = Except.ok (Item.record r)) :
    ∃ t1 v1, g[1]? = some t1 ∧ tok_value t1 = Except.ok v1 ∧
      ((is_ttl v1 = true ∧ r.ttl = TtlVal.str v1) ∨
       (is_ttl v1 = false ∧ ∃ t, ctx.current_ttl = some t ∧ r.ttl = TtlVal.tok t)) := by
  unfold recordStep at h
  split at h
  · simp at h
  · split at h
    · simp at h
    · split at h
      · simp at h
      · split at h
        · simp at h
        · rename_i t1 hat1
          split at h
          · simp at h
          · rename_i v1 hv1
            split at h
            · rename_i hit
              obtain ⟨ttlv, het, hr⟩ := recordTail_ttl _ _ _ _ _ _ _ h
              simp only [Option.some.injEq] at het
              exact ⟨t1, v1, tok_at_ok g 1 t1 hat1, hv1,
                Or.inl ⟨hit, by rw [hr, ← het]⟩⟩
            · rename_i hit
              simp only [Bool.not_eq_true] at hit
              obtain ⟨ttlv, het, hr⟩ := recordTail_ttl _ _ _ _ _ _ _ h
              cases hct : ctx.current_ttl with
              | none => rw [hct] at het; simp at het
              | some t =>
                rw [hct] at het
                simp only [Option.map_some', Option.some.injEq] at het
                exact ⟨t1, v1, tok_at_ok g 1 t1 hat1, hv1,
                  Or.inr ⟨hit, t, rfl, by rw [hr, ← het]⟩⟩

/-- C6 amended: a yielded record's fields `domain`, `type`, `value`,
`class` and `comment` are plain strings (so by construction), but the
`ttl` field is a plain string only when an explicit TTL token was present
in the group (and then it matches the TTL pattern); when the TTL is
inherited from a preceding `$TTL` directive the field holds the
directive's argument TOKEN, exactly the token stored in the carried
`current_ttl`, which is an optional token rather than an optional
string. -/
theorem c6_amended (ctx : ParseContext) (g : List Token) (c : String)
    (r : DNSRecord) (h : recordStep ctx g c = Except.ok (Item.record r)) :
    (∃ s, r.ttl = TtlVal.str s ∧ is_ttl s = true)
    ∨ (∃ t, ctx.current_ttl = some t ∧ r.ttl = TtlVal.tok t) := by
  obtain ⟨t1, v1, ha, hv, hc⟩ := recordStep_ttl ctx g c r h
  rcases hc with ⟨hi, hr⟩ | ⟨_, t, hct, hr⟩
  · exact Or.inl ⟨v1, hr, hi⟩
  · exact Or.inr ⟨t, hct, hr⟩

/-- C6 amended witness: a record built with the TTL inherited from
context carries the context token in its ttl field. -/
theorem c6_amended_witness :
    recordStep ⟨some (Token.data "300"), Token.data "z.", none⟩
        [Token.data "a", Token.data "A", Token.data "1.1.1.1"] "" =
      Except.ok (Item.record
        ⟨"a.z.", "A", "1.1.1.1", TtlVal.tok (Token.data "300"), "IN", ""⟩)
    ∧ ((∃ s, TtlVal.tok (Token.data "300") = TtlVal.str s ∧ is_ttl s = true)
       ∨ (∃ t, (some (Token.data "300") : Option Token) = some t ∧
           TtlVal.tok (Token.data "300") = TtlVal.tok t)) :=
  ⟨rfl, c6_amended ⟨some (Token.data "300"), Token.data "z.", none⟩
    [Token.data "a", Token.data "A", Token.data "1.1.1.1"] ""
    ⟨"a.z.", "A", "1.1.1.1", TtlVal.tok (Token.data "300"), "IN", ""⟩ rfl⟩

/-- C9 amended: the analyzer consumes the token at index 1 of a record
group as the TTL field exactly when its text is one or more digits
optionally followed by exactly one WORD character (letter, digit or
underscore — Python `\w`), not only a letter; for any other index-1
token the class/type/rdata candidate positions shift left by one, in
which case a yielded record's TTL comes from the carried context. -/
theorem c9_amended :
    (∀ v, is_ttl v = is_ttl_word v)
    ∧ (∀ ctx g c r, recordStep ctx g c = Except.ok (Item.record r) →
        ∀ t1 v1, g[1]? = some t1 → tok_value t1 = Except.ok v1 →
          (is_ttl v1 = true → r.ttl = TtlVal.str v1)
          ∧ (is_ttl v1 = false →
              ∃ t, ctx.current_ttl = some t ∧ r.ttl = TtlVal.tok t)) := by
  constructor
  · exact is_ttl_eq_word
  · intro ctx g c r h t1 v1 h1 hv1
    obtain ⟨t1', v1', h1', hv1', hc⟩ := recordStep_ttl ctx g c r h
    rw [h1] at h1'
    simp only [Option.some.injEq] at h1'
    subst h1'
    rw [hv1] at hv1'
    simp only [Except.ok.injEq] at hv1'
    subst hv1'
    rcases hc with ⟨hi, hr⟩ | ⟨hi, t, hct, hr⟩
    · constructor
      · intro _; exact hr
      · intro hfalse; rw [hi] at hfalse; cases hfalse
    · constructor
      · intro htrue; rw [hi] at htrue; cases htrue
      · intro _; exact ⟨t, hct, hr⟩

/-- C9 amended witness: `10h` is consumed as the TTL field. -/
theorem c9_amended_witness :
    recordStep ⟨none, Token.data "z.", none⟩
        [Token.data "a", Token.data "10h", Token.data "A", Token.data "x"] "" =
      Except.ok (Item.record ⟨"a.z.", "A", "x", TtlVal.str "10h", "IN", ""⟩)
    ∧ TtlVal.str "10h" = TtlVal.str "10h" :=
  ⟨rfl, (c9_amended.2 ⟨none, Token.data "z.", none⟩
    [Token.data "a", Token.data "10h", Token.data "A", Token.data "x"] ""
    ⟨"a.z.", "A", "x", TtlVal.str "10h", "IN", ""⟩ rfl
    (Token.data "10h") "10h" rfl rfl).1 rfl⟩

theorem eqStr_data (t : Token) (s : String) (h : eqStr t s = true) :
    t = Token.data s := by
  cases t with
  | data v => simp only [eqStr, beq_iff_eq] at h; rw [h]
  | comment v => simp [eqStr] at h
  | eol => simp [eqStr] at h
  | openParen => simp [eqStr] at h
  | closeParen => simp [eqStr] at h
  | space => simp [eqStr] at h

theorem special_origin (t : Token) (h : eqStr t "$ORIGIN" = true) :
    is_special t = true := by
  rw [eqStr_data t _ h]; decide

theorem special_ttl (t : Token) (h : eqStr t "$TTL" = true) :
    is_special t = true := by
  rw [eqStr_data t _ h]; decide

theorem not_at_of_special (t : Token) (h : is_special t = true) :
    eqStr t "@" = false := by
  cases he : eqStr t "@"
  · rfl
  · rw [eqStr_data t _ he] at h
    exact absurd h (by decide)

theorem ownerAndRecord_some (ctx : ParseContext) (t0 : Token) (tail : List Token)
    (c : String) (out : Option Item) (ctx2 : ParseContext)
    (h : ownerAndRecord ctx t0 tail c = Except.ok (out, ctx2)) :
    out.isSome = true := by
  unfold ownerAndRecord at h
  split at h
  · split at h
    · cases hr : recordStep ctx _ c <;> rw [hr] at h <;>
        simp only [Except.map, Except.ok.injEq, Prod.mk.injEq] at h
      · cases h
      · rw [← h.1]; rfl
    · simp only [Except.ok.injEq, Prod.mk.injEq] at h
      rw [← h.1]; rfl
  · split at h
    · simp only [tok_truthy, if_true] at h
      cases hr : recordStep _ _ c <;> rw [hr] at h <;>
        simp only [Except.map, Except.ok.injEq, Prod.mk.injEq] at h
      · cases h
      · rw [← h.1]; rfl
    · cases hr : recordStep ctx _ c <;> rw [hr] at h <;>
        simp only [Except.map, Except.ok.injEq, Prod.mk.injEq] at h
      · cases h
      · rw [← h.1]; rfl

theorem analyzeGroup2_count (ctx : ParseContext) (group : List Token) (cm : String)
    (out : Option Item) (ctx2 : ParseContext)
    (h : analyzeGroup2 ctx group cm = Except.ok (out, ctx2)) :
    out.isSome = !is_silent_dir group := by
  match group with
  | [] =>
    simp only [analyzeGroup2, Except.ok.injEq, Prod.mk.injEq] at h
    rw [← h.1]; rfl
  | [t] =>
    simp only [analyzeGroup2, Except.ok.injEq, Prod.mk.injEq] at h
    rw [← h.1]; rfl
  | t0 :: t1 :: rest =>
    simp only [analyzeGroup2] at h
    split at h
    · rename_i hs
      simp only [Except.ok.injEq] at h
      unfold dirStep at h
      split at h
      · rename_i ho
        match rest, h with
        | [], h =>
          simp only [Prod.mk.injEq] at h
          rw [← h.1]
          simp [is_silent_dir, is_origin_dir, ho]
        | r :: rs, h =>
          simp only [Prod.mk.injEq] at h
          rw [← h.1]
          simp [is_silent_dir, is_origin_dir, is_ttl_dir]
      · split at h
        · rename_i ho ht
          match rest, h with
          | [], h =>
            simp only [Prod.mk.injEq] at h
            rw [← h.1]
            simp [is_silent_dir, is_ttl_dir, ht]
          | r :: rs, h =>
            simp only [Prod.mk.injEq] at h
            rw [← h.1]
            simp [is_silent_dir, is_origin_dir, is_ttl_dir]
        · rename_i ho ht
          split at h <;>
            simp only [Prod.mk.injEq] at h <;>
            rw [← h.1] <;>
            cases rest <;>
            simp [is_silent_dir, is_origin_dir, is_ttl_dir,
              Bool.eq_false_iff.2 ho, Bool.eq_false_iff.2 ht]
    · rename_i hs
      rw [ownerAndRecord_some _ _ _ _ _ _ h]
      have ho : eqStr t0 "$ORIGIN" = false := by
        cases heq : eqStr t0 "$ORIGIN"
        · rfl
        · exact absurd (special_origin t0 heq) (by simp [hs])
      have ht : eqStr t0 "$TTL" = false := by
        cases heq : eqStr t0 "$TTL"
        · rfl
        · exact absurd (special_ttl t0 heq) (by simp [hs])
      cases rest <;> simp [is_silent_dir, is_origin_dir, is_ttl_dir, ho, ht]

theorem analyzeGroup_count (ctx : ParseContext) (g : List Token)
    (out : Option Item) (ctx2 : ParseContext)
    (h : analyzeGroup ctx g = Except.ok (out, ctx2)) :
    out.isSome = !silent_directive g := by
  unfold analyzeGroup at h
  split at h
  · cases h
  · exact analyzeGroup2_count _ _ _ _ _ h

/-- C5 amended: when the analyzer finishes without raising, it yields
exactly one item (record or error) per record group EXCEPT the
successfully processed directive groups — the well-formed two-token
`$ORIGIN`/`$TTL` directives — which yield zero items; every other
directive group (`$INCLUDE`, unknown directives, wrong arity) yields one
error item like any other group. -/
theorem c5_amended (ctx : ParseContext) (gs : List (List Token)) (items : List Item)
    (h : analyzeGroups ctx gs = (items, none)) :
    items.length = (gs.filter (fun g => !silent_directive g)).length := by
  induction gs generalizing ctx items with
  | nil =>
    simp only [analyzeGroups, Prod.mk.injEq] at h
    rw [← h.1]
    rfl
  | cons g gs ih =>
    simp only [analyzeGroups] at h
    split at h
    · simp at h
    · rename_i out ctx2 hg
      rcases hrec : analyzeGroups ctx2 gs with ⟨r1, r2⟩
      rw [hrec] at h
      simp only [Prod.mk.injEq] at h
      obtain ⟨hitems, hnone⟩ := h
      subst hnone
      subst hitems
      have hlen := ih ctx2 r1 hrec
      rw [List.length_append, List.filter_cons]
      have hcount := analyzeGroup_count ctx g out ctx2 hg
      cases hout : out with
      | none =>
        rw [hout] at hcount
        have hs : silent_directive g = true := by
          cases hsd : silent_directive g
          · rw [hsd] at hcount; simp at hcount
          · rfl
        simp [hs, hlen]
      | some it =>
        rw [hout] at hcount
        have hs : silent_directive g = false := by
          cases hsd : silent_directive g
          · rfl
          · rw [hsd] at hcount; simp at hcount
        simp [hs, hlen]
        omega

/-- C5 amended witness: a silent `$TTL` directive yields nothing, an
`$INCLUDE` directive and a short group yield one item each. -/
theorem c5_amended_witness :
    ([Item.error [Token.data "$INCLUDE", Token.data "x"] "$INCLUDE is unsupported",
      Item.error [Token.data "a"] "Missing fields"] : List Item).length =
    (([[Token.data "$TTL", Token.data "300"],
       [Token.data "$INCLUDE", Token.data "x"],
       [Token.data "a"]] : List (List Token)).filter
        (fun g => !silent_directive g)).length :=
  c5_amended ⟨none, Token.data "z", none⟩
    [[Token.data "$TTL", Token.data "300"],
     [Token.data "$INCLUDE", Token.data "x"],
     [Token.data "a"]]
    [Item.error [Token.data "$INCLUDE", Token.data "x"] "$INCLUDE is unsupported",
     Item.error [Token.data "a"] "Missing fields"] rfl

theorem dirStep_ctx (ctx : ParseContext) (t0 : Token) (gtail : List Token)
    (out : Option Item) (ctx2 : ParseContext)
    (h : dirStep ctx t0 (t0 :: gtail) = (out, ctx2)) :
    (ctx2.current_origin = ctx.current_origin ∨ is_origin_dir (t0 :: gtail) = true)
    ∧ (ctx2.current_ttl = ctx.current_ttl ∨ is_ttl_dir (t0 :: gtail) = true)
    ∧ ctx2.last_domain = ctx.last_domain := by
  unfold dirStep at h
  split at h
  · rename_i ho
    split at h
    · rename_i x t1 hx
      simp only [Prod.mk.injEq] at h
      rw [← h.2]
      refine ⟨Or.inr ?_, Or.inl rfl, rfl⟩
      cases hx
      simp [is_origin_dir, ho]
    · simp only [Prod.mk.injEq] at h
      rw [← h.2]
      exact ⟨Or.inl rfl, Or.inl rfl, rfl⟩
  · split at h
    · rename_i ho ht
      split at h
      · rename_i x t1 hx
        simp only [Prod.mk.injEq] at h
        rw [← h.2]
        refine ⟨Or.inl rfl, Or.inr ?_, rfl⟩
        cases hx
        simp [is_ttl_dir, ht]
      · simp only [Prod.mk.injEq] at h
        rw [← h.2]
        exact ⟨Or.inl rfl, Or.inl rfl, rfl⟩
    · split at h <;>
        simp only [Prod.mk.injEq] at h <;>
        rw [← h.2] <;>
        exact ⟨Or.inl rfl, Or.inl rfl, rfl⟩

theorem ownerAndRecord_ctx (ctx : ParseContext) (t0 : Token) (tail : List Token)
    (c : String) (out : Option Item) (ctx2 : ParseContext)
    (h : ownerAndRecord ctx t0 tail c = Except.ok (out, ctx2)) :
    ctx2.current_origin = ctx.current_origin
    ∧ ctx2.current_ttl = ctx.current_ttl
    ∧ ((eqStr t0 "@" = true ∧ ctx2.last_domain = some ctx.current_origin)
       ∨ (eqStr t0 "@" = false ∧ ctx2.last_domain = ctx.last_domain)) := by
  unfold ownerAndRecord at h
  split at h
  · split at h
    · cases hr : recordStep ctx _ c <;> rw [hr] at h <;>
        simp only [Except.map, Except.ok.injEq, Prod.mk.injEq] at h
      · cases h
      · rw [← h.2]
        exact ⟨rfl, rfl, Or.inr ⟨rfl, rfl⟩⟩
    · simp only [Except.ok.injEq, Prod.mk.injEq] at h
      rw [← h.2]
      exact ⟨rfl, rfl, Or.inr ⟨rfl, rfl⟩⟩
  · split at h
    · rename_i hat
      simp only [tok_truthy, if_true] at h
      cases hr : recordStep _ _ c <;> rw [hr] at h <;>
        simp only [Except.map, Except.ok.injEq, Prod.mk.injEq] at h
      · cases h
      · rw [← h.2]
        exact ⟨rfl, rfl, Or.inl ⟨hat, rfl⟩⟩
    · rename_i hat
      cases hr : recordStep ctx _ c <;> rw [hr] at h <;>
        simp only [Except.map, Except.ok.injEq, Prod.mk.injEq] at h
      · cases h
      · rw [← h.2]
        exact ⟨rfl, rfl, Or.inr ⟨Bool.eq_false_iff.2 hat, rfl⟩⟩

theorem analyzeGroup2_ctx (ctx : ParseContext) (group : List Token) (cm : String)
    (out : Option Item) (ctx2 : ParseContext)
    (h : analyzeGroup2 ctx group cm = Except.ok (out, ctx2)) :
    (ctx2.current_origin = ctx.current_origin ∨ is_origin_dir group = true)
    ∧ (ctx2.current_ttl = ctx.current_ttl ∨ is_ttl_dir group = true)
    ∧ ((at_subst group = true ∧ ctx2.last_domain = some ctx.current_origin)
       ∨ (at_subst group = false ∧ ctx2.last_domain = ctx.last_domain)) := by
  match group with
  | [] =>
    simp only [analyzeGroup2, Except.ok.injEq, Prod.mk.injEq] at h
    rw [← h.2]
    exact ⟨Or.inl rfl, Or.inl rfl, Or.inr ⟨rfl, rfl⟩⟩
  | [t] =>
    simp only [analyzeGroup2, Except.ok.injEq, Prod.mk.injEq] at h
    rw [← h.2]
    exact ⟨Or.inl rfl, Or.inl rfl, Or.inr ⟨rfl, rfl⟩⟩
  | t0 :: t1 :: rest =>
    simp only [analyzeGroup2] at h
    split at h
    · rename_i hs
      simp only [Except.ok.injEq] at h
      have hd := dirStep_ctx ctx t0 (t1 :: rest) out ctx2 h
      refine ⟨hd.1, hd.2.1, Or.inr ⟨?_, hd.2.2⟩⟩
      simp only [at_subst]
      exact not_at_of_special t0 hs
    · have hoar := ownerAndRecord_ctx ctx t0 (t1 :: rest) cm out ctx2 h
      refine ⟨Or.inl hoar.1, Or.inl hoar.2.1, ?_⟩
      rcases hoar.2.2 with ⟨hat, hl⟩ | ⟨hat, hl⟩
      · exact Or.inl ⟨hat, hl⟩
      · exact Or.inr ⟨hat, hl⟩

/-- C2 amended: the claim's invariant fails for records with explicit
owners — `last_domain` is NEVER updated when a record is yielded — so a
following whitespace-owner group reuses an owner only if some earlier
group's owner was `@`. What holds instead: across one group,
`current_origin` changes only through a well-formed two-token `$ORIGIN`
directive, `current_ttl` only through a well-formed two-token `$TTL`
directive, and `last_domain` changes (to the pre-substitution
`current_origin` token) exactly when the comment-stripped group has at
least two tokens and its first token equals `@` — even when that group
subsequently yields an in-band error rather than a record. -/
theorem c2_amended (ctx : ParseContext) (g : List Token)
    (out : Option Item) (ctx2 : ParseContext)
    (h : analyzeGroup ctx g = Except.ok (out, ctx2)) :
    (ctx2.current_origin = ctx.current_origin ∨ is_origin_dir (pop_comment g).1 = true)
    ∧ (ctx2.current_ttl = ctx.current_ttl ∨ is_ttl_dir (pop_comment g).1 = true)
    ∧ ((at_subst (pop_comment g).1 = true ∧ ctx2.last_domain = some ctx.current_origin)
       ∨ (at_subst (pop_comment g).1 = false ∧ ctx2.last_domain = ctx.last_domain)) := by
  unfold analyzeGroup at h
  split at h
  · cases h
  · exact analyzeGroup2_ctx _ _ _ _ _ h

/-- C2 amended witness: an `@`-owner group that errors in-band (no TTL
anywhere) still updates `last_domain` to the origin token. -/
theorem c2_amended_witness :
    analyzeGroup ⟨none, Token.data "z.", none⟩
        [Token.data "@", Token.data "A", Token.data "1.2.3.4"] =
      Except.ok (some (Item.error
          [Token.data "z.", Token.data "A", Token.data "1.2.3.4"]
          "No ttl specified and no default ttl specified"),
        ⟨none, Token.data "z.", some (Token.data "z.")⟩)
    ∧ ((Token.data "z." = Token.data "z." ∨
        is_origin_dir (pop_comment
          [Token.data "@", Token.data "A", Token.data "1.2.3.4"]).1 = true)
       ∧ ((none : Option Token) = none ∨
        is_ttl_dir (pop_comment
          [Token.data "@", Token.data "A", Token.data "1.2.3.4"]).1 = true)
       ∧ ((at_subst (pop_comment
            [Token.data "@", Token.data "A", Token.data "1.2.3.4"]).1 = true ∧
          (some (Token.data "z.") : Option Token) = some (Token.data "z."))
         ∨ (at_subst (pop_comment
            [Token.data "@", Token.data "A", Token.data "1.2.3.4"]).1 = false ∧
          (some (Token.data "z.") : Option Token) = none))) :=
  ⟨rfl, c2_amended ⟨none, Token.data "z.", none⟩
    [Token.data "@", Token.data "A", Token.data "1.2.3.4"]
    (some (Item.error [Token.data "z.", Token.data "A", Token.data "1.2.3.4"]
      "No ttl specified and no default ttl specified"))
    ⟨none, Token.data "z.", some (Token.data "z.")⟩ rfl⟩

end Zoneparser
